import Mathlib

/-!
Verification of the AppliedGo REST key-value server.

The repository contains two variants of the same tiny HTTP key-value
server:

* `src/rest.go` — the mutex-guarded version: a global `store` struct
  holding `data map[string]string` and a `sync.RWMutex`, with handlers
  `show` and `update` whose response bodies interpolate the Go
  expression `s.data[...]`.
* `src/unnamed/part_000` — the earlier, lock-free version: a global
  `data map[string]string` with handlers whose response bodies
  interpolate `data[...]`.

We embed both variants shallowly.  A Go `map[string]string` is modelled
as an association list with unique keys: indexing `data[k]` returns the
zero value `""` when the key is absent, and assignment `data[k] = v`
replaces the entry if present and appends it otherwise.  Go's `fmt`
verb `%v` prints a `map[string]string` as `map[k1:v1 k2:v2]` with the
keys in sorted order; `fmtMap` models that rendering.  The handlers
become pure functions from (request, path parameters, store) to
(response body, store); the mutexes of `rest.go` serialise the handler
bodies, so the sequential semantics below is the per-request semantics
the locks enforce.
-/

namespace AppliedGo

/-- Model of the relevant observable parts of a Go `*http.Request`:
method, URL path, headers and body.  Neither handler in the source ever
reads its request parameter `r`, so the fields are never inspected. -/
structure Request where
  method : String
  path : String
  headers : List (String × String)
  body : String
deriving Repr, DecidableEq

/-- Model of `httprouter.Params`: the named path segments extracted from
the URL by the router. -/
structure Params where
  pairs : List (String × String)
deriving Repr, DecidableEq

/-- Helper for `Params.byName`: first value bound to the given name. -/
def byNameAux (n : String) : List (String × String) → String
  | [] => ""
  | q :: rest => if q.1 = n then q.2 else byNameAux n rest

/-- Model of `httprouter`'s `Params.ByName`: the value of the first
parameter whose name matches, and `""` when no parameter matches (as for
the `/list` route, which binds no parameters). -/
def Params.byName (p : Params) (n : String) : String :=
  byNameAux n p.pairs

/-- Go map read `data[k]` without the comma-ok form cannot distinguish a
missing key from the zero value; `mapLookup` is the underlying partial
lookup. -/
def mapLookup : List (String × String) → String → Option String
  | [], _ => none
  | e :: rest, k => if e.1 = k then some e.2 else mapLookup rest k

/-- Go map indexing `data[k]`: the stored value, or the zero value `""`
when the key is absent. -/
def mapGet (d : List (String × String)) (k : String) : String :=
  (mapLookup d k).getD ""

/-- Go map assignment `data[k] = v`: overwrite the entry if the key is
present, append it otherwise. -/
def mapSet : List (String × String) → String → String → List (String × String)
  | [], k, v => [(k, v)]
  | e :: rest, k, v => if e.1 = k then (k, v) :: rest else e :: mapSet rest k v

/-- Insert a key into a sorted list of keys, keeping it sorted
(ascending, Go's byte order on UTF-8 strings). -/
def insertSorted (k : String) : List String → List String
  | [] => [k]
  | x :: xs => if k ≤ x then k :: x :: xs else x :: insertSorted k xs

/-- Sort a list of keys ascending, as Go's `fmt` does before printing a
map. -/
def sortKeys : List String → List String
  | [] => []
  | k :: ks => insertSorted k (sortKeys ks)

/-- Render the entries of a map for the given key order, separated by
single spaces, each as `key:value` — the element format of Go's `%v` for
`map[string]string`. -/
def fmtEntries (d : List (String × String)) : List String → String
  | [] => ""
  | [k] => k ++ ":" ++ mapGet d k
  | k :: ks => k ++ ":" ++ mapGet d k ++ " " ++ fmtEntries d ks

/-- Go's `fmt.Fprintf(w, "%v", data)` for a `map[string]string`: the
entries in ascending key order inside `map[...]`. -/
def fmtMap (d : List (String × String)) : String :=
  "map[" ++ fmtEntries d (sortKeys (d.map Prod.fst)) ++ "]"

namespace Rest

/-- The `store` struct of `rest.go`.  The `sync.RWMutex` field `m` only
serialises access and has no observable state, so it is not part of the
model; `data` is the guarded map. -/
structure store where
  data : List (String × String)
deriving Repr, DecidableEq

/-- The `show` handler of `rest.go`: with an empty `key` path parameter
it renders the whole store as `Read list: <map>`, otherwise it renders
`Read entry: s.data[<k>] = <v>` for the looked-up value (the zero value
`""` when the key is absent).  It returns the response body together
with the (unchanged) store. -/
def «show» (r : Request) (p : Params) (st : store) : String × store :=
  if p.byName "key" = "" then
    ("Read list: " ++ fmtMap st.data, st)
  else
    ("Read entry: s.data[" ++ p.byName "key" ++ "] = "
       ++ mapGet st.data (p.byName "key"), st)

/-- The `update` handler of `rest.go`: writes `key -> value` into the
store and responds `Updated: s.data[<k>] = <v>` using the local
parameter values. -/
def update (r : Request) (p : Params) (st : store) : String × store :=
  ("Updated: s.data[" ++ p.byName "key" ++ "] = " ++ p.byName "value",
   { data := mapSet st.data (p.byName "key") (p.byName "value") })

end Rest

namespace RestV0

/-- The `show` handler of `src/unnamed/part_000`: identical control flow
to the `rest.go` version, but the store is the bare global map `data`
and the entry response reads `Read entry: data[<k>] = <v>`. -/
def «show» (r : Request) (p : Params) (data : List (String × String)) :
    String × List (String × String) :=
  if p.byName "key" = "" then
    ("Read list: " ++ fmtMap data, data)
  else
    ("Read entry: data[" ++ p.byName "key" ++ "] = "
       ++ mapGet data (p.byName "key"), data)

/-- The `update` handler of `part_000`: writes `key -> value` and then
responds `Updated: data[<k>] = <v>` by re-reading `data[k]` after the
assignment. -/
def update (r : Request) (p : Params) (data : List (String × String)) :
    String × List (String × String) :=
  ("Updated: data[" ++ p.byName "key" ++ "] = "
     ++ mapGet (mapSet data (p.byName "key") (p.byName "value")) (p.byName "key"),
   mapSet data (p.byName "key") (p.byName "value"))

end RestV0

/-- The parameters the router passes for `GET /entry/:key`. -/
def entryParams (k : String) : Params := ⟨[("key", k)]⟩

/-- The parameters the router passes for `GET /list`: none. -/
def listParams : Params := ⟨[]⟩

/-- The parameters the router passes for `PUT /entry/:key/:value`. -/
def updateParams (k v : String) : Params := ⟨[("key", k), ("value", v)]⟩

/-- A placeholder request; the handlers never read it. -/
def req0 : Request := ⟨"GET", "/", [], ""⟩

/-- The store at process start: `data: map[string]string{}`. -/
def store0 : Rest.store := ⟨[]⟩

/-- A routed request against the server: either `GET /list` /
`GET /entry/:key` (both served by `show`; the empty key selects the
list route) or `PUT /entry/:key/:value` (served by `update`). -/
inductive Req where
  | showReq (k : String)
  | updateReq (k v : String)

/-- Whether a request writes the given key: only `update` with that key
does. -/
def Req.writesKey : Req → String → Bool
  | .showReq _, _ => false
  | .updateReq k _, k' => k == k'

/-- The store after serving one request (the response body is sent to
the client and not part of the server state). -/
def step (st : Rest.store) (q : Req) : Rest.store :=
  match q with
  | .showReq k => (Rest.«show» req0 (entryParams k) st).2
  | .updateReq k v => (Rest.update req0 (updateParams k v) st).2

/-- The store after serving a sequence of requests in order; the
`sync.RWMutex` of `rest.go` serialises the critical sections, so this is
the state evolution the locks enforce. -/
def run (st : Rest.store) (qs : List Req) : Rest.store :=
  qs.foldl step st

theorem byName_entryParams (k : String) : (entryParams k).byName "key" = k := rfl

theorem byName_listParams : listParams.byName "key" = "" := rfl

theorem byName_updateParams_key (k v : String) :
    (updateParams k v).byName "key" = k := rfl

theorem byName_updateParams_value (k v : String) :
    (updateParams k v).byName "value" = v := rfl

theorem mapLookup_mapSet_self (d : List (String × String)) (k v : String) :
    mapLookup (mapSet d k v) k = some v := by
  induction d with
  | nil => simp [mapSet, mapLookup]
  | cons e rest ih =>
    obtain ⟨k0, v0⟩ := e
    by_cases h : k0 = k
    · simp [mapSet, h, mapLookup]
    · simp [mapSet, h, mapLookup, ih]

theorem mapLookup_mapSet_ne (d : List (String × String)) (k v k' : String)
    (h : k' ≠ k) :
    mapLookup (mapSet d k v) k' = mapLookup d k' := by
  induction d with
  | nil => simp [mapSet, mapLookup, Ne.symm h]
  | cons e rest ih =>
    obtain ⟨k0, v0⟩ := e
    by_cases h1 : k0 = k
    · subst h1
      simp [mapSet, mapLookup, Ne.symm h]
    · simp [mapSet, h1, mapLookup, ih]

theorem mapGet_mapSet_self (d : List (String × String)) (k v : String) :
    mapGet (mapSet d k v) k = v := by
  simp [mapGet, mapLookup_mapSet_self]

theorem mapSet_mapSet_self (d : List (String × String)) (k v : String) :
    mapSet (mapSet d k v) k v = mapSet d k v := by
  induction d with
  | nil => simp [mapSet]
  | cons e rest ih =>
    obtain ⟨k0, v0⟩ := e
    by_cases h : k0 = k
    · simp [mapSet, h]
    · simp [mapSet, h, ih]

theorem show_snd (r : Request) (p : Params) (st : Rest.store) :
    (Rest.«show» r p st).2 = st := by
  unfold Rest.«show»
  split <;> rfl

theorem showV0_snd (r : Request) (p : Params) (d : List (String × String)) :
    (RestV0.«show» r p d).2 = d := by
  unfold RestV0.«show»
  split <;> rfl

theorem update_snd (r : Request) (st : Rest.store) (k v : String) :
    (Rest.update r (updateParams k v) st).2 = ⟨mapSet st.data k v⟩ := rfl

theorem mapLookup_run_no_write (qs : List Req) (st : Rest.store) (k : String)
    (h : ∀ q ∈ qs, q.writesKey k = false) :
    mapLookup (run st qs).data k = mapLookup st.data k := by
  induction qs generalizing st with
  | nil => rfl
  | cons q rest ih =>
    have hq := h q (List.mem_cons_self q rest)
    have hrest : ∀ q' ∈ rest, q'.writesKey k = false := fun q' hq' =>
      h q' (List.mem_cons_of_mem q hq')
    have hstep : mapLookup (step st q).data k = mapLookup st.data k := by
      cases q with
      | showReq k' => rw [step, show_snd]
      | updateReq k' v' =>
        have hne : k ≠ k' := by
          intro hkk
          subst hkk
          simp [Req.writesKey] at hq
        rw [step, update_snd]
        exact mapLookup_mapSet_ne st.data k' v' k hne
    calc mapLookup (run st (q :: rest)).data k
        = mapLookup (run (step st q) rest).data k := rfl
      _ = mapLookup (step st q).data k := ih (step st q) hrest
      _ = mapLookup st.data k := hstep

theorem mem_insertSorted (x k : String) (ks : List String) :
    x ∈ insertSorted k ks ↔ x = k ∨ x ∈ ks := by
  induction ks with
  | nil => simp [insertSorted]
  | cons y ys ih =>
    by_cases h : k ≤ y
    · simp [insertSorted, h]
    · simp [insertSorted, h, ih]
      tauto

theorem mem_sortKeys (x : String) (ks : List String) :
    x ∈ sortKeys ks ↔ x ∈ ks := by
  induction ks with
  | nil => simp [sortKeys]
  | cons y ys ih => simp [sortKeys, mem_insertSorted, ih]

theorem fmtEntries_contains (d : List (String × String)) (ks : List String)
    (x : String) (hx : x ∈ ks) :
    ∃ l r, fmtEntries d ks = l ++ (x ++ ":" ++ mapGet d x) ++ r := by
  induction ks with
  | nil => cases hx
  | cons y ys ih =>
    cases ys with
    | nil =>
      have hxy : x = y := by simpa using hx
      subst hxy
      exact ⟨"", "", by
        simp [fmtEntries, String.empty_append, String.append_empty]⟩
    | cons z zs =>
      rcases List.mem_cons.mp hx with h | h
      · subst h
        refine ⟨"", " " ++ fmtEntries d (z :: zs), ?_⟩
        simp [fmtEntries, String.empty_append, String.append_assoc]
      · obtain ⟨l, r, hlr⟩ := ih h
        refine ⟨y ++ ":" ++ mapGet d y ++ " " ++ l, r, ?_⟩
        simp [fmtEntries, hlr, String.append_assoc]

theorem fmtMap_contains (d : List (String × String)) (k : String)
    (hk : k ∈ d.map Prod.fst) :
    ∃ l r, fmtMap d = l ++ (k ++ ":" ++ mapGet d k) ++ r := by
  have hk' : k ∈ sortKeys (d.map Prod.fst) := (mem_sortKeys k _).mpr hk
  obtain ⟨l, r, hlr⟩ := fmtEntries_contains d _ k hk'
  refine ⟨"map[" ++ l, r ++ "]", ?_⟩
  simp [fmtMap, hlr, String.append_assoc]

theorem show_entry_body (r : Request) (st : Rest.store) (k : String)
    (hk : k ≠ "") :
    (Rest.«show» r (entryParams k) st).1
      = "Read entry: s.data[" ++ k ++ "] = " ++ mapGet st.data k := by
  unfold Rest.«show»
  rw [byName_entryParams, if_neg hk]

theorem showV0_entry_body (r : Request) (d : List (String × String))
    (k : String) (hk : k ≠ "") :
    (RestV0.«show» r (entryParams k) d).1
      = "Read entry: data[" ++ k ++ "] = " ++ mapGet d k := by
  unfold RestV0.«show»
  rw [byName_entryParams, if_neg hk]

theorem show_list_body (r : Request) (st : Rest.store) :
    (Rest.«show» r listParams st).1 = "Read list: " ++ fmtMap st.data := by
  unfold Rest.«show»
  rw [byName_listParams, if_pos rfl]

/-- No lost writes after serialisation: the `sync.Mutex` in `update`
serialises the map assignments, so a batch of concurrent `update` calls
executes as a sequence; every key written by exactly one of them is
observable afterwards with its written value, whatever the arrival
order. -/
theorem serialized_updates_no_lost_writes (ups : List (String × String))
    (st : Rest.store) (k v : String)
    (hmem : (k, v) ∈ ups)
    (huniq : ∀ e ∈ ups, e.1 = k → e = (k, v)) :
    mapLookup (run st (ups.map (fun e => Req.updateReq e.1 e.2))).data k
      = some v := by
  induction ups generalizing st with
  | nil => cases hmem
  | cons e rest ih =>
    by_cases hrest : (k, v) ∈ rest
    · exact ih (step st (Req.updateReq e.1 e.2)) hrest
        (fun e' he' => huniq e' (List.mem_cons_of_mem e he'))
    · have hek : e = (k, v) := by
        rcases List.mem_cons.mp hmem with h | h
        · exact h.symm
        · exact absurd h hrest
      subst hek
      have hnowrite : ∀ q ∈ rest.map (fun e => Req.updateReq e.1 e.2),
          q.writesKey k = false := by
        intro q hq
        obtain ⟨e', he', rfl⟩ := List.mem_map.mp hq
        have : e'.1 ≠ k := by
          intro h1
          exact hrest ((huniq e' (List.mem_cons_of_mem _ he') h1) ▸ he')
        simp [Req.writesKey, this]
      calc mapLookup (run st ((((k, v) :: rest).map
              (fun e => Req.updateReq e.1 e.2)))).data k
          = mapLookup (run (step st (Req.updateReq k v))
              (rest.map (fun e => Req.updateReq e.1 e.2))).data k := rfl
        _ = mapLookup (step st (Req.updateReq k v)).data k :=
            mapLookup_run_no_write _ _ k hnowrite
        _ = some v := mapLookup_mapSet_self st.data k v

/-- The store after the spec's listing scenario: `update("a","1")` then
`update("b","2")` starting from the empty store. -/
def abStore : Rest.store :=
  run store0 [Req.updateReq "a" "1", Req.updateReq "b" "2"]

/-- C1: last-write-wins read-back.  For every sequence of requests in
which `update(k, v)` is the most recent update for key `k` (the requests
served after it never write `k`), the store maps `k` to `v` and
`show(k)` reports exactly that value. -/
theorem C1_last_write_wins (st : Rest.store) (k v : String) (qs : List Req)
    (hk : k ≠ "") (hqs : ∀ q ∈ qs, q.writesKey k = false) :
    mapGet (run (step st (Req.updateReq k v)) qs).data k = v
    ∧ (Rest.«show» req0 (entryParams k)
          (run (step st (Req.updateReq k v)) qs)).1
        = "Read entry: s.data[" ++ k ++ "] = " ++ v := by
  have hlook : mapLookup (run (step st (Req.updateReq k v)) qs).data k
      = some v := by
    rw [mapLookup_run_no_write qs _ k hqs]
    exact mapLookup_mapSet_self st.data k v
  have hget : mapGet (run (step st (Req.updateReq k v)) qs).data k = v := by
    simp [mapGet, hlook]
  exact ⟨hget, by rw [show_entry_body req0 _ k hk, hget]⟩

/-- Witness for C1: after `update("first","hello")`, then an update of a
different key and a list request, `show("first")` reports `hello`. -/
theorem C1_witness :
    mapGet (run (step store0 (Req.updateReq "first" "hello"))
        [Req.updateReq "second" "hi", Req.showReq ""]).data "first" = "hello"
    ∧ (Rest.«show» req0 (entryParams "first")
          (run (step store0 (Req.updateReq "first" "hello"))
            [Req.updateReq "second" "hi", Req.showReq ""])).1
        = "Read entry: s.data[" ++ "first" ++ "] = " ++ "hello" :=
  C1_last_write_wins store0 "first" "hello"
    [Req.updateReq "second" "hi", Req.showReq ""] (by decide) (by decide)

/-- C2 counterexample: in `rest.go`, after `update("first","hello")` the
body of `show("first")` is `Read entry: s.data[first] = hello`, not the
claimed `Read entry: data[first] = hello`. -/
theorem C2_counterexample :
    (Rest.«show» req0 (entryParams "first")
        (Rest.update req0 (updateParams "first" "hello") store0).2).1
      ≠ "Read entry: data[first] = hello" := by decide

/-- C2 (amended): for a non-empty key `k` stored with value `v`, the
`rest.go` handler responds exactly `Read entry: s.data[<k>] = <v>`, and
the `part_000` variant responds exactly `Read entry: data[<k>] = <v>`. -/
theorem C2_read_entry_format (d : List (String × String)) (k v : String)
    (hk : k ≠ "") (hv : mapLookup d k = some v) :
    (Rest.«show» req0 (entryParams k) ⟨d⟩).1
      = "Read entry: s.data[" ++ k ++ "] = " ++ v
    ∧ (RestV0.«show» req0 (entryParams k) d).1
      = "Read entry: data[" ++ k ++ "] = " ++ v := by
  have hget : mapGet d k = v := by simp [mapGet, hv]
  constructor
  · rw [show_entry_body req0 ⟨d⟩ k hk]
    simp [hget]
  · rw [showV0_entry_body req0 d k hk, hget]

/-- Witness for C2: on the store holding `first -> hello`, both variants
produce their respective exact bodies for `show("first")`. -/
theorem C2_witness :
    (Rest.«show» req0 (entryParams "first") ⟨[("first", "hello")]⟩).1
      = "Read entry: s.data[" ++ "first" ++ "] = " ++ "hello"
    ∧ (RestV0.«show» req0 (entryParams "first") [("first", "hello")]).1
      = "Read entry: data[" ++ "first" ++ "] = " ++ "hello" :=
  C2_read_entry_format [("first", "hello")] "first" "hello"
    (by decide) (by decide)

/-- C3: reading a never-written key succeeds with an empty value.  From
the empty store at process start, after any request sequence that never
writes `k`, `show(k)` responds with the read-entry body and empty value,
and that response is identical to the one for a store in which `k` is
stored with the empty value (absent and empty-valued are
indistinguishable). -/
theorem C3_missing_key_reads_empty (qs : List Req) (k : String)
    (hk : k ≠ "") (hqs : ∀ q ∈ qs, q.writesKey k = false) :
    (Rest.«show» req0 (entryParams k) (run store0 qs)).1
      = "Read entry: s.data[" ++ k ++ "] = "
    ∧ (Rest.«show» req0 (entryParams k) (run store0 qs)).1
      = (Rest.«show» req0 (entryParams k)
          ⟨mapSet (run store0 qs).data k ""⟩).1 := by
  have hlook : mapLookup (run store0 qs).data k = none := by
    rw [mapLookup_run_no_write qs store0 k hqs]
    rfl
  have hget : mapGet (run store0 qs).data k = "" := by simp [mapGet, hlook]
  have h1 : (Rest.«show» req0 (entryParams k) (run store0 qs)).1
      = "Read entry: s.data[" ++ k ++ "] = " := by
    rw [show_entry_body req0 _ k hk, hget, String.append_empty]
  have h2 : (Rest.«show» req0 (entryParams k)
        ⟨mapSet (run store0 qs).data k ""⟩).1
      = "Read entry: s.data[" ++ k ++ "] = " := by
    rw [show_entry_body req0 _ k hk]
    simp [mapGet_mapSet_self, String.append_empty]
  exact ⟨h1, h1.trans h2.symm⟩

/-- Witness for C3: after writing only `first`, reading the never-written
key `second` yields the empty value, indistinguishable from a stored
empty value. -/
theorem C3_witness :
    (Rest.«show» req0 (entryParams "second")
        (run store0 [Req.updateReq "first" "hello"])).1
      = "Read entry: s.data[" ++ "second" ++ "] = "
    ∧ (Rest.«show» req0 (entryParams "second")
        (run store0 [Req.updateReq "first" "hello"])).1
      = (Rest.«show» req0 (entryParams "second")
          ⟨mapSet (run store0 [Req.updateReq "first" "hello"]).data
            "second" ""⟩).1 :=
  C3_missing_key_reads_empty [Req.updateReq "first" "hello"] "second"
    (by decide) (by decide)

/-- C4 counterexample: in `rest.go`, `update("first","hello")` responds
`Updated: s.data[first] = hello`, not the claimed
`Updated: data[first] = hello`. -/
theorem C4_counterexample :
    (Rest.update req0 (updateParams "first" "hello") store0).1
      ≠ "Updated: data[first] = hello" := by decide

/-- C4 (amended): for all key and value strings, including empty ones,
`update(k, v)` in `rest.go` always succeeds with no validation, writes
`k -> v` into the store (creating or overwriting the entry), and
responds exactly `Updated: s.data[<k>] = <v>`. -/
theorem C4_update_always_writes (r : Request) (st : Rest.store)
    (k v : String) :
    (Rest.update r (updateParams k v) st).2.data = mapSet st.data k v
    ∧ mapLookup (Rest.update r (updateParams k v) st).2.data k = some v
    ∧ (Rest.update r (updateParams k v) st).1
        = "Updated: s.data[" ++ k ++ "] = " ++ v := by
  refine ⟨rfl, ?_, rfl⟩
  rw [update_snd]
  exact mapLookup_mapSet_self st.data k v

/-- C5: the list route renders the entire store.  With an empty path key
the body is `Read list: ` followed by the map rendering, and for every
key present in the store that rendering contains the entry `k:v`. -/
theorem C5_list_renders_store (r : Request) (st : Rest.store) (k : String)
    (hk : k ∈ st.data.map Prod.fst) :
    (Rest.«show» r listParams st).1 = "Read list: " ++ fmtMap st.data
    ∧ ∃ l rt, (Rest.«show» r listParams st).1
        = l ++ (k ++ ":" ++ mapGet st.data k) ++ rt := by
  have hbody := show_list_body r st
  obtain ⟨l, rt, hlr⟩ := fmtMap_contains st.data k hk
  refine ⟨hbody, "Read list: " ++ l, rt, ?_⟩
  rw [hbody, hlr]
  simp [String.append_assoc]

/-- Witness for C5: after writes `a:1` and `b:2` the list output
contains both entries. -/
theorem C5_witness :
    ((Rest.«show» req0 listParams abStore).1
        = "Read list: " ++ fmtMap abStore.data
      ∧ ∃ l rt, (Rest.«show» req0 listParams abStore).1
          = l ++ ("a" ++ ":" ++ mapGet abStore.data "a") ++ rt)
    ∧ ((Rest.«show» req0 listParams abStore).1
        = "Read list: " ++ fmtMap abStore.data
      ∧ ∃ l rt, (Rest.«show» req0 listParams abStore).1
          = l ++ ("b" ++ ":" ++ mapGet abStore.data "b") ++ rt) :=
  ⟨C5_list_renders_store req0 abStore "a" (by decide),
   C5_list_renders_store req0 abStore "b" (by decide)⟩

/-- C6: update is idempotent.  For every request, parameter list and
store state, running `update` on the store it has just produced returns
the same response body and the same store as the first call. -/
theorem C6_update_idempotent (r : Request) (p : Params) (st : Rest.store) :
    Rest.update r p ((Rest.update r p st).2) = Rest.update r p st := by
  unfold Rest.update
  simp [mapSet_mapSet_self]

/-- C7: the handlers are stateless pure functions of (request, path
parameters, store); in particular `show` — in both variants, for every
key including the empty list key — returns the store unchanged. -/
theorem C7_show_preserves_store (r : Request) (p : Params)
    (st : Rest.store) (d : List (String × String)) :
    (Rest.«show» r p st).2 = st ∧ (RestV0.«show» r p d).2 = d :=
  ⟨show_snd r p st, showV0_snd r p d⟩

/-- C9: update touches only its own key.  In both variants, after
`update(k, v)` every key different from `k` maps to exactly the same
optional value as before (present entries keep their values, absent
keys stay absent). -/
theorem C9_update_frame (r : Request) (st : Rest.store) (k v k' : String)
    (h : k' ≠ k) :
    mapLookup (Rest.update r (updateParams k v) st).2.data k'
      = mapLookup st.data k'
    ∧ mapLookup (RestV0.update r (updateParams k v) st.data).2 k'
      = mapLookup st.data k' := by
  constructor
  · rw [update_snd]
    exact mapLookup_mapSet_ne st.data k v k' h
  · exact mapLookup_mapSet_ne st.data k v k' h

/-- Witness for C9: writing `first` leaves the entry for `second`
untouched and the absent key `third` absent. -/
theorem C9_witness :
    mapLookup (Rest.update req0 (updateParams "first" "hello")
        ⟨[("second", "hi")]⟩).2.data "second"
      = mapLookup [("second", "hi")] "second"
    ∧ mapLookup (RestV0.update req0 (updateParams "first" "hello")
        (Rest.store.data ⟨[("second", "hi")]⟩)).2 "second"
      = mapLookup [("second", "hi")] "second" :=
  C9_update_frame req0 ⟨[("second", "hi")]⟩ "first" "hello" "second"
    (by decide)

/-- C10: the handlers ignore the HTTP request object entirely: two calls
differing only in the request (method, headers, body, path) produce the
identical response body and store, in both variants and for both
handlers. -/
theorem C10_request_noninterference (r1 r2 : Request) (p : Params)
    (st : Rest.store) (d : List (String × String)) :
    Rest.«show» r1 p st = Rest.«show» r2 p st
    ∧ Rest.update r1 p st = Rest.update r2 p st
    ∧ RestV0.«show» r1 p d = RestV0.«show» r2 p d
    ∧ RestV0.update r1 p d = RestV0.update r2 p d :=
  ⟨rfl, rfl, rfl, rfl⟩

end AppliedGo
